import Mathlib

/-!
Verification development for the TrendRadar MCP data-query layer
(`src/mcp_server/tools/data_query.py`).

The Python module is shallowly embedded below: Python dicts that are used
as ordered key-value maps become association lists (Python dicts preserve
insertion order), Python exceptions become an explicit `Except` layer, and
the external collaborators (the `DataService` store, the validators from
`mcp_server.utils.validators`, the taxonomy loader) become oracle fields of
an `Env` record, except for the date helpers `normalize_date_range` and
`validate_date_query`, which are not part of the sources and are therefore
modelled from the specification.
-/

namespace TrendRadar

/-- Calendar date, as produced by the date resolver (year, month, day). -/
structure Date where
  y : Nat
  m : Nat
  d : Nat
deriving DecidableEq, Repr

/-- Strict calendar order on dates, used for the range sanity check. -/
def dateLt (a b : Date) : Bool :=
  a.y < b.y ∨ (a.y = b.y ∧ (a.m < b.m ∨ (a.m = b.m ∧ a.d < b.d)))

/-- Numeric value of a decimal digit list (most significant first). -/
def natOfDigits (cs : List Char) : Nat :=
  cs.foldl (fun a c => a * 10 + (c.toNat - 48)) 0

/-- Decimal digit test for date parsing. -/
def isDig (c : Char) : Bool :=
  48 ≤ c.toNat ∧ c.toNat ≤ 57

/-- Left zero padding used by the `strftime` date formatting. -/
def padNat (w : Nat) (x : Nat) : String :=
  let s := toString x
  String.mk (List.replicate (w - s.length) (Char.ofNat 48)) ++ s

/-- Formatting of a date in ISO form, the embedding of `strftime` with the
pattern used throughout the module. -/
def isoOf (dt : Date) : String :=
  padNat 4 dt.y ++ "-" ++ padNat 2 dt.m ++ "-" ++ padNat 2 dt.d

/-- Parsing of a strict ISO `YYYY-MM-DD` date string. -/
def parseIso (s : String) : Option Date :=
  match s.data with
  | [y1, y2, y3, y4, h1, m1, m2, h2, d1, d2] =>
    if h1 = Char.ofNat 45 ∧ h2 = Char.ofNat 45 ∧
        isDig y1 ∧ isDig y2 ∧ isDig y3 ∧ isDig y4 ∧
        isDig m1 ∧ isDig m2 ∧ isDig d1 ∧ isDig d2 then
      let mo := natOfDigits [m1, m2]
      let da := natOfDigits [d1, d2]
      if 1 ≤ mo ∧ mo ≤ 12 ∧ 1 ≤ da ∧ da ≤ 31 then
        some ⟨natOfDigits [y1, y2, y3, y4], mo, da⟩
      else none
    else none
  | _ => none

/-- Recognition of the relative form `N天前` (N days ago). -/
def parseDaysAgo (s : String) : Option Nat :=
  let ds := s.data.takeWhile isDig
  let rest := s.data.dropWhile isDig
  if ds ≠ [] ∧ rest = [Char.ofNat 22825, Char.ofNat 21069] then
    some (natOfDigits ds)
  else none

/-- Error payload of an `MCPError`, mirroring what its `to_dict` produces. -/
structure ErrDict where
  code : String
  message : String
  suggestion : Option String
deriving DecidableEq, Repr

/-- Python exception outcomes observable at the facade boundary: an
`MCPError` (carrying its dictionary form) or any other exception (carrying
the text `str(e)`). -/
inductive PyExn where
  | mcp (e : ErrDict)
  | other (msg : String)
deriving DecidableEq, Repr

/-- JSON-like values appearing in the response dictionaries. -/
inductive JVal where
  | s (v : String)
  | n (v : Int)
  | b (v : Bool)
  | nil
  | arr (l : List JVal)
  | obj (l : List (String × JVal))

/-- Response dictionaries are ordered key-value lists. -/
abbrev Dict := List (String × JVal)

/-- First-occurrence key lookup on a response dictionary. -/
def dLookup (d : Dict) (k : String) : Option JVal :=
  match d with
  | [] => none
  | (k1, v) :: r => if k1 = k then some v else dLookup r k

/-- Embedding of the Python splat update `{**d, k: v}`: replace the value of
an existing key in place, otherwise append the key at the end. -/
def dictSet (d : Dict) (k : String) (v : JVal) : Dict :=
  match d with
  | [] => [(k, v)]
  | (k1, w) :: r => if k1 = k then (k1, v) :: r else (k1, w) :: dictSet r k v

/-- Boolean view of the `success` field of a response dictionary. -/
def successFlag (d : Dict) : Bool :=
  match dLookup d "success" with
  | some (.b v) => v
  | _ => false

/-- Error code carried by the `error` field of a response dictionary. -/
def errCodeOf (d : Dict) : Option String :=
  match dLookup d "error" with
  | some (.obj eo) =>
    match dLookup eo "code" with
    | some (.s c) => some c
    | _ => none
  | _ => none

/-- Value of the `days` field of a response dictionary, when integral. -/
def daysField (d : Dict) : Option Int :=
  match dLookup d "days" with
  | some (.n v) => some v
  | _ => none

/-- Caller-supplied `date_range` argument: absent, a string, or a dict of
string pairs (Python dicts of strings, in insertion order). -/
inductive DateRangeArg where
  | noneA
  | strA (s : String)
  | objA (ps : List (String × String))
deriving DecidableEq, Repr

/-- Normalized `date_range` value: either still a plain string or a parsed
range object. -/
inductive DateRangeVal where
  | strV (s : String)
  | objV (ps : List (String × String))
deriving DecidableEq, Repr

/-- Single-quote character, written by code point to keep sources plain. -/
def sqChar : Char := Char.ofNat 39

/-- Double-quote character. -/
def dqChar : Char := Char.ofNat 34

/-- Opening-brace character. -/
def lbChar : Char := Char.ofNat 123

/-- Closing-brace character. -/
def rbChar : Char := Char.ofNat 125

/-- Embedding of the Python builtin `str()` applied to a dict whose keys and
values are plain strings (no quotes or backslashes): single-quoted entries,
`: ` between key and value, `, ` between entries, surrounded by braces.
This is what line 503 of `data_query.py` produces for a dict argument. -/
def pyReprDict (ps : List (String × String)) : String :=
  String.singleton lbChar ++
    String.intercalate ", "
      (ps.map (fun p =>
        String.singleton sqChar ++ p.1 ++ String.singleton sqChar ++ ": " ++
          String.singleton sqChar ++ p.2 ++ String.singleton sqChar)) ++
    String.singleton rbChar

/-- Whitespace skipping for the JSON object scanner. -/
def skipWs : List Char → List Char
  | [] => []
  | c :: r =>
    if c = Char.ofNat 32 ∨ c = Char.ofNat 9 ∨ c = Char.ofNat 10 ∨ c = Char.ofNat 13 then
      skipWs r
    else c :: r

/-- Body of a double-quoted JSON string (escape sequences rejected; the
range payloads are plain dates). -/
def scanJStrAux : List Char → List Char → Option (String × List Char)
  | acc, c :: r =>
    if c = dqChar then some (String.mk acc.reverse, r)
    else if c = Char.ofNat 92 then none
    else scanJStrAux (c :: acc) r
  | _, [] => none

/-- Double-quoted JSON string, after optional whitespace. -/
def scanJStr (l : List Char) : Option (String × List Char) :=
  match skipWs l with
  | c :: r => if c = dqChar then scanJStrAux [] r else none
  | [] => none

/-- Members of a JSON object of string fields, fuelled by input length. -/
def scanJPairs : Nat → List Char → Option (List (String × String) × List Char)
  | 0, _ => none
  | Nat.succ fu, l =>
    match scanJStr l with
    | none => none
    | some (k, r1) =>
      match skipWs r1 with
      | c :: r2 =>
        if c = Char.ofNat 58 then
          match scanJStr r2 with
          | none => none
          | some (v, r3) =>
            match skipWs r3 with
            | c2 :: r4 =>
              if c2 = Char.ofNat 44 then
                match scanJPairs fu r4 with
                | some (ps, rest) => some ((k, v) :: ps, rest)
                | none => none
              else if c2 = rbChar then some ([(k, v)], r4)
              else none
            | [] => none
        else none
      | [] => none

/-- Parse of a whole JSON object of string fields, or `none`. The Python
repr produced by `str(dict)` uses single quotes and is rejected here, as by
`json.loads`. -/
def parseJsonObj (s : String) : Option (List (String × String)) :=
  match skipWs s.data with
  | c :: r =>
    if c = lbChar then
      match skipWs r with
      | c2 :: r2 =>
        if c2 = rbChar then (if skipWs r2 = [] then some [] else none)
        else
          match scanJPairs (s.length + 1) (c2 :: r2) with
          | some (ps, rest) => if skipWs rest = [] then some ps else none
          | none => none
      | [] => none
    else none
  | [] => none

/-- String lookup with default over string pair lists, the embedding of
`dict.get(key, default)`. -/
def lookupS (ps : List (String × String)) (k : String) (dflt : String) : String :=
  match ps with
  | [] => dflt
  | (k1, v) :: r => if k1 = k then v else lookupS r k dflt

/-- Modelled from the spec: sanity check of a structured range, raising
`InvalidDateError` (code `INVALID_PARAMETER`) when the range end precedes
its start; part of the missing `mcp_server.utils.validators`. -/
def checkRange (ps : List (String × String)) : Except PyExn DateRangeVal :=
  match parseIso (lookupS ps "start" ""), parseIso (lookupS ps "end" "") with
  | some ds, some de =>
    if dateLt de ds then
      .error (.mcp ⟨"INVALID_PARAMETER", "无效的日期范围: 结束日期早于开始日期",
        some "请确保结束日期不早于开始日期"⟩)
    else .ok (.objV ps)
  | _, _ => .ok (.objV ps)

/-- Modelled from the spec: `normalize_date_range` from
`mcp_server.utils.validators` is not under `src/`. Per the specification, a
string argument is first tried as the JSON-serialized form of a range
object (first success wins); otherwise it is kept as a plain string, and a
structured range is passed through, with the end-before-start check. -/
def normalize_date_range : DateRangeVal → Except PyExn DateRangeVal
  | .objV ps => checkRange ps
  | .strV s =>
    match parseJsonObj s with
    | some ps => checkRange ps
    | none => .ok (.strV s)

/-- Modelled from the spec: `validate_date_query` from
`mcp_server.utils.validators` is not under `src/`. It resolves a relative
expression (today, yesterday, the day before, N days ago) against the
current date, else parses a literal ISO date, else raises a validation
error with code `INVALID_PARAMETER`. Calendar arithmetic is delegated to
the `subDays` collaborator. -/
def validate_date_query (today : Date) (subDays : Date → Nat → Date)
    (s : String) : Except PyExn Date :=
  if s = "今天" then .ok today
  else if s = "昨天" then .ok (subDays today 1)
  else if s = "前天" then .ok (subDays today 2)
  else
    match parseDaysAgo s with
    | some nn => .ok (subDays today nn)
    | none =>
      match parseIso s with
      | some dt => .ok dt
      | none =>
        .error (.mcp ⟨"INVALID_PARAMETER", "无法解析日期: " ++ s,
          some "支持的格式: YYYY-MM-DD、今天、昨天、前天、N天前"⟩)

/-- Stored title record: rank history plus optional url fields, the shape
delivered by `read_all_titles_for_date` and consumed at lines 542-555. -/
structure TitleInfo where
  ranks : List Int
  url : Option String
  mobileUrl : Option String
deriving DecidableEq, Repr

/-- Projection of one title record into a response item (lines 543-555). -/
structure NewsItem where
  title : String
  source_name : String
  rank : Int
  is_new : Bool
  url : Option String
  mobile_url : Option String
deriving DecidableEq, Repr

/-- Substring containment, the embedding of the Python `in` operator on
strings, as contiguous code-point containment. -/
def strIn (needle hay : String) : Prop :=
  needle.data <:+: hay.data

instance (a b : String) : Decidable (strIn a b) := by
  unfold strIn
  exact List.decidableInfix a.data b.data

/-- Platform display-name lookup, the embedding of
`id_to_name.get(platform_id, platform_id)`. -/
def nameOf (idToName : List (String × String)) (pid : String) : String :=
  lookupS idToName pid pid

/-- Construction of the `news_item` dictionary of lines 543-555: the rank is
the head of the rank history (0 when empty), `is_new` holds exactly when the
history has length one, and the url fields are included on demand with empty
defaults. -/
def mkNewsItem (platformName : String) (title : String) (info : TitleInfo)
    (includeUrl : Bool) : NewsItem where
  title := title
  source_name := platformName
  rank := info.ranks.headD 0
  is_new := info.ranks.length = 1
  url := if includeUrl then some (info.url.getD "") else none
  mobile_url := if includeUrl then some (info.mobileUrl.getD "") else none

/-- Taxonomy term as delivered by `parse_frequency_words`: a bare string, a
dict with a `word` field (possibly missing, defaulted to the empty string),
or any other shape, which the loops at lines 566-576 skip. -/
inductive TermRepr where
  | strT (s : String)
  | dictT (w : Option String)
  | otherT
deriving DecidableEq, Repr

/-- Keyword group: `required` and `normal` term lists. -/
structure WordGroup where
  required : List TermRepr
  normal : List TermRepr
deriving DecidableEq, Repr

/-- Strings contributed by one taxonomy term (lines 566-576): a bare string
stands for itself, a dict contributes its `word` field defaulted to the
empty string, anything else is skipped. -/
def termWords : TermRepr → List String
  | .strT s => [s]
  | .dictT w => [w.getD ""]
  | .otherT => []

/-- Flattened `all_words` list of one group: extracted `required` words
followed by extracted `normal` words (lines 564-576). -/
def groupWords (g : WordGroup) : List String :=
  g.required.flatMap termWords ++ g.normal.flatMap termWords

/-- Candidate terms of the whole taxonomy in scan order. The two nested
source loops (over groups, then over each flattened `all_words` list) visit
exactly this list in this order. -/
def flatWords (wgs : List WordGroup) : List String :=
  wgs.flatMap groupWords

/-- Buckets are ordered dictionaries from key to collected items. -/
abbrev Buckets := List (String × List NewsItem)

/-- Embedding of the dict-of-list append idiom of lines 558-560 and 580-582:
append to the list of an existing key, or add the key at the end with a
one-element list. -/
def bucketAppend (m : Buckets) (k : String) (v : NewsItem) : Buckets :=
  match m with
  | [] => [(k, [v])]
  | (k1, vs) :: r =>
    if k1 = k then (k1, vs ++ [v]) :: r else (k1, vs) :: bucketAppend r k v

/-- List collected under a key, empty when the key is absent. -/
def bucketOf (m : Buckets) (k : String) : List NewsItem :=
  match m with
  | [] => []
  | (k1, vs) :: r => if k1 = k then vs else bucketOf r k

/-- Keys of a bucket dictionary, in insertion order. -/
def keysOf (m : Buckets) : List String :=
  m.map Prod.fst

/-- Keyword pass for one title (lines 563-582): every candidate term that is
non-empty and contained in the title appends the item to the bucket keyed by
that literal term. -/
def addTitleKeywords (ws : List String) (title : String) (item : NewsItem)
    (m : Buckets) : Buckets :=
  ws.foldl (fun acc w => if w ≠ "" ∧ strIn w title then bucketAppend acc w item else acc) m

/-- Per-platform title map as delivered by the store: platform id to an
ordered title-to-record dictionary. -/
abbrev AllTitles := List (String × List (String × TitleInfo))

/-- Inner loop of lines 542-582 over the titles of one platform, carrying
the pair of platform buckets and keyword buckets. -/
def processTitles (ws : List String) (idToName : List (String × String))
    (includeUrl : Bool) (pid : String) (acc : Buckets × Buckets)
    (titles : List (String × TitleInfo)) : Buckets × Buckets :=
  titles.foldl
    (fun a p =>
      let item := mkNewsItem (nameOf idToName pid) p.1 p.2 includeUrl
      (bucketAppend a.1 pid item, addTitleKeywords ws p.1 item a.2))
    acc

/-- Outer loop of lines 539-582: scan the platforms in store order and build
`platform_to_news` and `keyword_to_news`. -/
def buildBuckets (wgs : List WordGroup) (idToName : List (String × String))
    (includeUrl : Bool) (T : AllTitles) : Buckets × Buckets :=
  T.foldl (fun acc pt => processTitles (flatWords wgs) idToName includeUrl pt.1 acc pt.2)
    ([], [])

/-- Stable ascending sort by rank, the embedding of
`news_list.sort(key=lambda x: x["rank"])` (Python list sort is stable). -/
def sortByRank (l : List NewsItem) : List NewsItem :=
  List.insertionSort (fun a b => a.rank ≤ b.rank) l

/-- Stable descending sort of buckets by member count, the embedding of
`sorted(items(), key=lambda x: len(x[1]), reverse=True)` (stable, so equal
counts keep dictionary insertion order). -/
def sortBucketsByLen (m : Buckets) : Buckets :=
  List.insertionSort (fun a b => b.2.length ≤ a.2.length) m

/-- One keyword group of the response (lines 594-598). -/
structure KeywordGroupResult where
  keyword : String
  count : Nat
  news : List NewsItem
deriving DecidableEq, Repr

/-- One platform group of the response (lines 619-624). -/
structure PlatformGroupResult where
  platform : String
  platform_name : String
  count : Nat
  news : List NewsItem
deriving DecidableEq, Repr

/-- Keyword-mode output construction of lines 585-598: sort buckets by
descending size, then for each bucket report the key, the pre-truncation
count, and the rank-sorted list truncated to the cap. -/
def keywordGroupsOf (kb : Buckets) (cap : Nat) : List KeywordGroupResult :=
  (sortBucketsByLen kb).map
    (fun p => ⟨p.1, p.2.length, (sortByRank p.2).take cap⟩)

/-- Platform-mode output construction of lines 610-624. -/
def platformGroupsOf (idToName : List (String × String)) (pb : Buckets)
    (cap : Nat) : List PlatformGroupResult :=
  (sortBucketsByLen pb).map
    (fun p => ⟨p.1, nameOf idToName p.1, p.2.length, (sortByRank p.2).take cap⟩)

/-- Reported `total_news` of the keyword branch: sum of the per-group
pre-truncation counts (line 606). -/
def totalNewsKw (groups : List KeywordGroupResult) : Nat :=
  (groups.map (fun g => g.count)).sum

/-- Reported `total_news` of the platform branch (line 632). -/
def totalNewsPf (groups : List PlatformGroupResult) : Nat :=
  (groups.map (fun g => g.count)).sum

/-- External collaborators of `DataQueryTools`: the validators from
`mcp_server.utils.validators`, the `DataService` store methods, the raw
parser access used by `get_news_for_summary`, and the calendar arithmetic
used by the date resolver. Each fallible collaborator may return any value
or raise any exception. -/
structure Env where
  today : Date
  subDays : Date → Nat → Date
  vPlatforms : Option (List String) → Except PyExn (Option (List String))
  vLimit : Option Int → Int → Except PyExn Int
  vKeyword : String → Except PyExn String
  vMode : Option String → List String → String → Except PyExn String
  vTopN : Option Int → Int → Except PyExn Int
  vDateRange : DateRangeArg → Except PyExn (Option (Date × Date))
  svcLatestNews : Option (List String) → Int → Bool → Except PyExn (List JVal)
  svcSearchKeyword : String → Option (Date × Date) → Option (List String) →
    Option Int → Except PyExn Dict
  svcTrending : Int → String → String → Except PyExn Dict
  svcNewsByDate : Date → Option (List String) → Int → Bool → Except PyExn (List JVal)
  svcLatestRss : Option (List String) → Int → Bool → Except PyExn (List JVal)
  svcSearchRss : String → Option (List String) → Int → Int → Bool →
    Except PyExn (List JVal)
  svcRssStatus : Except PyExn Dict
  readAllTitles : Date → Except PyExn (AllTitles × List (String × String) × List String)
  parseFreqWords : Except PyExn (List WordGroup)

/-- Error envelope produced for a caught `MCPError`
(`{"success": False, "error": e.to_dict()}`). -/
def errObj (e : ErrDict) : List (String × JVal) :=
  [("code", .s e.code), ("message", .s e.message)] ++
    (match e.suggestion with
     | some sg => [("suggestion", .s sg)]
     | none => [])

/-- Envelope of a caught `MCPError`. -/
def mcpFailDict (e : ErrDict) : Dict :=
  [("success", .b false), ("error", .obj (errObj e))]

/-- Envelope of any other caught exception: code `INTERNAL_ERROR` and the
message text only. -/
def internalFailDict (msg : String) : Dict :=
  [("success", .b false),
   ("error", .obj [("code", .s "INTERNAL_ERROR"), ("message", .s msg)])]

/-- Embedding of the uniform `try/except MCPError/except Exception` wrapper
that closes every public operation. -/
def tryWrap (b : Except PyExn Dict) : Dict :=
  match b with
  | .ok d => d
  | .error (.mcp e) => mcpFailDict e
  | .error (.other m) => internalFailDict m

/-- JSON encoding of an optional platform list echoed in responses. -/
def optStrListJ : Option (List String) → JVal
  | none => .nil
  | some l => .arr (l.map .s)

/-- Arguments of `get_news_for_summary`. -/
structure SummaryArgs where
  date_range : DateRangeArg
  mode : String
  group_by : String
  maxNews : Int
  include_url : Bool
deriving Repr

/-- Fixed-up `group_by` (line 491-492): anything outside the two allowed
values falls back to `keyword`. -/
def groupByOf (args : SummaryArgs) : String :=
  if args.group_by = "keyword" ∨ args.group_by = "platform" then args.group_by
  else "keyword"

/-- Fixed-up per-group cap (lines 494-495): integers below 1 fall back to
the default 10 (the `isinstance` test is vacuous in the typed embedding). -/
def capOf (args : SummaryArgs) : Nat :=
  (if args.maxNews < 1 then (10 : Int) else args.maxNews).toNat

/-- String that the summary path hands to `normalize_date_range` (lines
497-503): a missing argument becomes `今天` and a non-string argument is
coerced with `str()`, producing the single-quoted Python repr for a dict. -/
def summaryDateStr0 : DateRangeArg → String
  | .noneA => "今天"
  | .strA s => s
  | .objA ps => pyReprDict ps

/-- Date-resolution steps of `get_news_for_summary` (lines 497-514):
coerce to a string, normalize, take the `start` field of a structured
range (default `今天`), then resolve the date expression. -/
def resolveSummaryDate (env : Env) (dr : DateRangeArg) :
    Except PyExn (String × Date) :=
  match normalize_date_range (.strV (summaryDateStr0 dr)) with
  | .error e => .error e
  | .ok norm =>
    let ds := match norm with
      | .objV ps => lookupS ps "start" "今天"
      | .strV s => s
    match validate_date_query env.today env.subDays ds with
    | .error e => .error e
    | .ok target => .ok (ds, target)

/-- Structured outcome of the `get_news_for_summary` try block: the
data-not-found early return, or one of the two grouped payloads. -/
inductive SummaryOut where
  | notFound (ds : String)
  | kwOut (target : Date) (mode : String) (groups : List KeywordGroupResult)
  | pfOut (target : Date) (mode : String) (groups : List PlatformGroupResult)
deriving DecidableEq, Repr

/-- Grouping part of `get_news_for_summary` (lines 536-634), after the
titles, names and taxonomy have been read. -/
def summaryCore (W : List WordGroup) (idToName : List (String × String))
    (args : SummaryArgs) (T : AllTitles) (target : Date) (mode : String) :
    SummaryOut :=
  let bk := buildBuckets W idToName args.include_url T
  if groupByOf args = "keyword" then
    .kwOut target mode (keywordGroupsOf bk.2 (capOf args))
  else
    .pfOut target mode (platformGroupsOf idToName bk.1 (capOf args))

/-- Try-block of `get_news_for_summary` (lines 484-634): validate the mode,
resolve the date, read the titles, return `DATA_NOT_FOUND` when the store
mapping is empty, otherwise load the taxonomy and group. -/
def summaryBody (env : Env) (args : SummaryArgs) : Except PyExn SummaryOut :=
  match env.vMode (some args.mode) ["daily", "current", "incremental"] "daily" with
  | .error e => .error e
  | .ok mode =>
    match resolveSummaryDate env args.date_range with
    | .error e => .error e
    | .ok (ds, target) =>
      match env.readAllTitles target with
      | .error e => .error e
      | .ok (T, idToName, _) =>
        if T = [] then .ok (.notFound ds)
        else
          match env.parseFreqWords with
          | .error e => .error e
          | .ok W => .ok (summaryCore W idToName args T target mode)

/-- JSON encoding of a news item (lines 546-555). -/
def newsItemJ (it : NewsItem) : JVal :=
  .obj ([("title", .s it.title), ("source_name", .s it.source_name),
         ("rank", .n it.rank), ("is_new", .b it.is_new)] ++
    (match it.url with
     | some u => [("url", .s u)]
     | none => []) ++
    (match it.mobile_url with
     | some u => [("mobile_url", .s u)]
     | none => []))

/-- JSON encoding of a keyword group (lines 594-598). -/
def kwGroupJ (g : KeywordGroupResult) : JVal :=
  .obj [("keyword", .s g.keyword), ("count", .n g.count),
        ("news", .arr (g.news.map newsItemJ))]

/-- JSON encoding of a platform group (lines 619-624). -/
def pfGroupJ (g : PlatformGroupResult) : JVal :=
  .obj [("platform", .s g.platform), ("platform_name", .s g.platform_name),
        ("count", .n g.count), ("news", .arr (g.news.map newsItemJ))]

/-- Early-return envelope of lines 522-530 for an empty titles mapping. -/
def notFoundDict (ds : String) : Dict :=
  [("success", .b false),
   ("error", .obj [("code", .s "DATA_NOT_FOUND"),
                   ("message", .s ("未找到 " ++ ds ++ " 的新闻数据")),
                   ("suggestion", .s "请确保爬虫已经运行并生成了数据")])]

/-- Response dictionaries of the summary try block (lines 522-530, 600-608
and 626-634). -/
def summaryOutDict : SummaryOut → Dict
  | .notFound ds => notFoundDict ds
  | .kwOut target mode groups =>
    [("success", .b true), ("date", .s (isoOf target)), ("mode", .s mode),
     ("group_by", .s "keyword"),
     ("total_keywords", .n groups.length),
     ("total_news", .n (totalNewsKw groups)),
     ("keyword_groups", .arr (groups.map kwGroupJ))]
  | .pfOut target mode groups =>
    [("success", .b true), ("date", .s (isoOf target)), ("mode", .s mode),
     ("group_by", .s "platform")
    , ("total_platforms", .n groups.length),
     ("total_news", .n (totalNewsPf groups)),
     ("platform_groups", .arr (groups.map pfGroupJ))]

/-- Public operation `get_news_for_summary` (lines 451-648). -/
def get_news_for_summary (env : Env) (args : SummaryArgs) : Dict :=
  tryWrap ((summaryBody env args).map summaryOutDict)

/-- Try-block of `get_latest_news` (lines 58-75). -/
def latestNewsBody (env : Env) (platforms : Option (List String))
    (limit : Option Int) (includeUrl : Bool) : Except PyExn Dict :=
  match env.vPlatforms platforms with
  | .error e => .error e
  | .ok ps =>
    match env.vLimit limit 50 with
    | .error e => .error e
    | .ok lim =>
      match env.svcLatestNews ps lim includeUrl with
      | .error e => .error e
      | .ok news =>
        .ok [("news", .arr news), ("total", .n news.length),
             ("platforms", optStrListJ ps), ("success", .b true)]

/-- Public operation `get_latest_news` (lines 35-89). -/
def get_latest_news (env : Env) (platforms : Option (List String))
    (limit : Option Int) (includeUrl : Bool) : Dict :=
  tryWrap (latestNewsBody env platforms limit includeUrl)

/-- Try-block of `search_news_by_keyword` (lines 119-139). -/
def searchKeywordBody (env : Env) (keyword : String) (dr : DateRangeArg)
    (platforms : Option (List String)) (limit : Option Int) :
    Except PyExn Dict :=
  match env.vKeyword keyword with
  | .error e => .error e
  | .ok kw =>
    match env.vDateRange dr with
    | .error e => .error e
    | .ok drt =>
      match env.vPlatforms platforms with
      | .error e => .error e
      | .ok ps =>
        match limit with
        | none =>
          match env.svcSearchKeyword kw drt ps none with
          | .error e => .error e
          | .ok d => .ok (dictSet d "success" (.b true))
        | some v =>
          match env.vLimit (some v) 100 with
          | .error e => .error e
          | .ok lim =>
            match env.svcSearchKeyword kw drt ps (some lim) with
            | .error e => .error e
            | .ok d => .ok (dictSet d "success" (.b true))

/-- Public operation `search_news_by_keyword` (lines 91-153). -/
def search_news_by_keyword (env : Env) (keyword : String) (dr : DateRangeArg)
    (platforms : Option (List String)) (limit : Option Int) : Dict :=
  tryWrap (searchKeywordBody env keyword dr platforms limit)

/-- Inline failure envelope of lines 193-200 for a bad extraction mode. -/
def badExtractDict (em : String) : Dict :=
  [("success", .b false),
   ("error", .obj [("code", .s "INVALID_PARAMETER"),
                   ("message", .s ("不支持的提取模式: " ++ em)),
                   ("suggestion", .s "支持的模式: keywords, auto_extract")])]

/-- Try-block of `get_trending_topics` (lines 183-212). -/
def trendingBody (env : Env) (topN : Option Int) (mode : Option String)
    (extractMode : Option String) : Except PyExn Dict :=
  match env.vTopN topN 10 with
  | .error e => .error e
  | .ok tn =>
    match env.vMode mode ["daily", "current"] "current" with
    | .error e => .error e
    | .ok md =>
      match extractMode with
      | none =>
        match env.svcTrending tn md "keywords" with
        | .error e => .error e
        | .ok d => .ok (dictSet d "success" (.b true))
      | some em =>
        if em = "keywords" ∨ em = "auto_extract" then
          match env.svcTrending tn md em with
          | .error e => .error e
          | .ok d => .ok (dictSet d "success" (.b true))
        else .ok (badExtractDict em)

/-- Public operation `get_trending_topics` (lines 155-226). -/
def get_trending_topics (env : Env) (topN : Option Int) (mode : Option String)
    (extractMode : Option String) : Dict :=
  tryWrap (trendingBody env topN mode extractMode)

/-- JSON encoding of the normalized `date_range` echoed by
`get_news_by_date`. -/
def drValJ : DateRangeVal → JVal
  | .strV s => .s s
  | .objV ps => .obj (ps.map (fun p => (p.1, JVal.s p.2)))

/-- Defaulting step of `get_news_by_date` (lines 265-266): a missing range
becomes `今天`, strings and dicts pass through. -/
def drInitOf : DateRangeArg → DateRangeVal
  | .noneA => .strV "今天"
  | .strA s => .strV s
  | .objA ps => .objV ps

/-- Start-date extraction of lines 272-276: the `start` field of a range
object (default `今天`), or the string itself. -/
def startStrOf : DateRangeVal → String
  | .objV ps => lookupS ps "start" "今天"
  | .strV s => s

/-- Try-block of `get_news_by_date` (lines 263-296): default the range to
`今天`, normalize it (structured objects pass through unchanged), take the
`start` of a range, resolve, validate platforms and limit, then query. -/
def byDateBody (env : Env) (dr : DateRangeArg) (platforms : Option (List String))
    (limit : Option Int) (includeUrl : Bool) : Except PyExn Dict :=
  match normalize_date_range (drInitOf dr) with
  | .error e => .error e
  | .ok norm =>
    match validate_date_query env.today env.subDays (startStrOf norm) with
    | .error e => .error e
    | .ok target =>
      match env.vPlatforms platforms with
      | .error e => .error e
      | .ok ps =>
        match env.vLimit limit 50 with
        | .error e => .error e
        | .ok lim =>
          match env.svcNewsByDate target ps lim includeUrl with
          | .error e => .error e
          | .ok news =>
            .ok [("news", .arr news), ("total", .n news.length),
                 ("date", .s (isoOf target)), ("date_range", drValJ norm),
                 ("platforms", optStrListJ ps), ("success", .b true)]

/-- Public operation `get_news_by_date` (lines 228-310). -/
def get_news_by_date (env : Env) (dr : DateRangeArg)
    (platforms : Option (List String)) (limit : Option Int)
    (includeUrl : Bool) : Dict :=
  tryWrap (byDateBody env dr platforms limit includeUrl)

/-- Try-block of `get_latest_rss` (lines 333-347). -/
def latestRssBody (env : Env) (feeds : Option (List String))
    (limit : Option Int) (includeSummary : Bool) : Except PyExn Dict :=
  match env.vLimit limit 50 with
  | .error e => .error e
  | .ok lim =>
    match env.svcLatestRss feeds lim includeSummary with
    | .error e => .error e
    | .ok rss =>
      .ok [("rss", .arr rss), ("total", .n rss.length),
           ("feeds", optStrListJ feeds), ("success", .b true)]

/-- Public operation `get_latest_rss` (lines 316-361). -/
def get_latest_rss (env : Env) (feeds : Option (List String))
    (limit : Option Int) (includeSummary : Bool) : Dict :=
  tryWrap (latestRssBody env feeds limit includeSummary)

/-- Days value actually used by `search_rss` (lines 388-389): out-of-range
values are replaced by the default 7, in-range values pass unchanged. -/
def usedDays (days : Int) : Int :=
  if days < 1 ∨ 30 < days then 7 else days

/-- Try-block of `search_rss` (lines 384-406). -/
def searchRssBody (env : Env) (keyword : String) (feeds : Option (List String))
    (days : Int) (limit : Option Int) (includeSummary : Bool) :
    Except PyExn Dict :=
  match env.vKeyword keyword with
  | .error e => .error e
  | .ok kw =>
    match env.vLimit limit 50 with
    | .error e => .error e
    | .ok lim =>
      match env.svcSearchRss kw feeds (usedDays days) lim includeSummary with
      | .error e => .error e
      | .ok rss =>
        .ok [("rss", .arr rss), ("total", .n rss.length), ("keyword", .s kw),
             ("feeds", optStrListJ feeds), ("days", .n (usedDays days)),
             ("success", .b true)]

/-- Public operation `search_rss` (lines 363-420). -/
def search_rss (env : Env) (keyword : String) (feeds : Option (List String))
    (days : Int) (limit : Option Int) (includeSummary : Bool) : Dict :=
  tryWrap (searchRssBody env keyword feeds days limit includeSummary)

/-- Try-block of `get_rss_feeds_status` (lines 429-435). -/
def rssStatusBody (env : Env) : Except PyExn Dict :=
  match env.svcRssStatus with
  | .error e => .error e
  | .ok st => .ok (dictSet st "success" (.b true))

/-- Public operation `get_rss_feeds_status` (lines 422-449). -/
def get_rss_feeds_status (env : Env) : Dict :=
  tryWrap (rssStatusBody env)

/-- One encounter while scanning platforms: the platform id, the title, its
record and the projected item. The scan of lines 539-582 visits these in
platform order, then title order. -/
structure Enc where
  pid : String
  title : String
  info : TitleInfo
  item : NewsItem
deriving DecidableEq, Repr

/-- Encounter sequence of the scan of lines 539-582, in scan order. -/
def encsOf (idToName : List (String × String)) (includeUrl : Bool)
    (T : AllTitles) : List Enc :=
  T.flatMap (fun pt =>
    pt.2.map (fun p =>
      ⟨pt.1, p.1, p.2, mkNewsItem (nameOf idToName pt.1) p.1 p.2 includeUrl⟩))

/-- Platform-bucket accumulation over an encounter sequence. -/
def pfFold (L : List Enc) (m : Buckets) : Buckets :=
  L.foldl (fun acc e => bucketAppend acc e.pid e.item) m

/-- Keyword-bucket accumulation over an encounter sequence. -/
def kwFold (ws : List String) (L : List Enc) (m : Buckets) : Buckets :=
  L.foldl (fun acc e => addTitleKeywords ws e.title e.item acc) m

theorem dLookup_dictSet_self : ∀ (d : Dict) (k : String) (v : JVal),
    dLookup (dictSet d k v) k = some v
  | [], k, v => by simp [dictSet, dLookup]
  | (k1, w) :: r, k, v => by
    by_cases h : k1 = k
    · simp [dictSet, dLookup, h]
    · simp [dictSet, dLookup, h, dLookup_dictSet_self r k v]

theorem bucketOf_bucketAppend : ∀ (m : Buckets) (k : String) (v : NewsItem) (t : String),
    bucketOf (bucketAppend m k v) t = if k = t then bucketOf m t ++ [v] else bucketOf m t
  | [], k, v, t => by
    by_cases h : k = t <;> simp [bucketAppend, bucketOf, h]
  | (k1, vs) :: r, k, v, t => by
    by_cases h1 : k1 = k
    · subst h1
      by_cases h2 : k1 = t <;> simp [bucketAppend, bucketOf, h2]
    · by_cases h2 : k1 = t
      · subst h2
        have hkt : ¬ k = k1 := fun he => h1 he.symm
        simp [bucketAppend, bucketOf, h1, hkt]
      · simp [bucketAppend, bucketOf, h1, h2, bucketOf_bucketAppend r k v t]

theorem keysOf_cons (k1 : String) (vs : List NewsItem) (r : Buckets) :
    keysOf ((k1, vs) :: r) = k1 :: keysOf r := rfl

theorem keysOf_bucketAppend : ∀ (m : Buckets) (k : String) (v : NewsItem),
    keysOf (bucketAppend m k v) =
      if k ∈ keysOf m then keysOf m else keysOf m ++ [k]
  | [], k, v => by simp [bucketAppend, keysOf]
  | (k1, vs) :: r, k, v => by
    by_cases h1 : k1 = k
    · subst h1
      simp [bucketAppend, keysOf_cons]
    · rw [keysOf_cons]
      have hstep : bucketAppend ((k1, vs) :: r) k v = (k1, vs) :: bucketAppend r k v := by
        simp [bucketAppend, h1]
      rw [hstep, keysOf_cons, keysOf_bucketAppend r k v]
      have hne : ¬ k = k1 := fun he => h1 he.symm
      by_cases hk : k ∈ keysOf r
      · simp [hk, hne]
      · simp [hk, hne]

theorem mem_keysOf_bucketAppend (m : Buckets) (k : String) (v : NewsItem) (t : String) :
    t ∈ keysOf (bucketAppend m k v) ↔ t ∈ keysOf m ∨ t = k := by
  rw [keysOf_bucketAppend]
  split
  · rename_i hk
    constructor
    · exact fun h => Or.inl h
    · rintro (h | rfl)
      · exact h
      · exact hk
  · simp [List.mem_append]

theorem bucketOf_addTitleKeywords :
    ∀ (ws : List String) (title : String) (item : NewsItem) (m : Buckets) (t : String),
    bucketOf (addTitleKeywords ws title item m) t =
      bucketOf m t ++
        (if t ≠ "" ∧ strIn t title then List.replicate (ws.count t) item else [])
  | [], title, item, m, t => by
    by_cases ht : t ≠ "" ∧ strIn t title <;> simp [addTitleKeywords, ht]
  | w :: ws, title, item, m, t => by
    have hstep : addTitleKeywords (w :: ws) title item m =
        addTitleKeywords ws title item
          (if w ≠ "" ∧ strIn w title then bucketAppend m w item else m) := rfl
    rw [hstep, bucketOf_addTitleKeywords ws title item _ t]
    by_cases hw : w ≠ "" ∧ strIn w title
    · rw [if_pos hw, bucketOf_bucketAppend]
      by_cases hwt : w = t
      · subst hwt
        rw [if_pos rfl, if_pos hw, if_pos hw]
        simp [List.count_cons, List.append_assoc, List.replicate_succ]
      · rw [if_neg hwt]
        congr 1
        by_cases ht : t ≠ "" ∧ strIn t title
        · rw [if_pos ht, if_pos ht]
          simp [List.count_cons, hwt]
        · rw [if_neg ht, if_neg ht]
    · rw [if_neg hw]
      congr 1
      by_cases ht : t ≠ "" ∧ strIn t title
      · rw [if_pos ht, if_pos ht]
        have hwt : ¬ w = t := fun he => hw (by rw [he]; exact ht)
        simp [List.count_cons, hwt]
      · rw [if_neg ht, if_neg ht]

theorem mem_keysOf_addTitleKeywords :
    ∀ (ws : List String) (title : String) (item : NewsItem) (m : Buckets) (t : String),
    t ∈ keysOf (addTitleKeywords ws title item m) ↔
      t ∈ keysOf m ∨ (t ≠ "" ∧ strIn t title ∧ t ∈ ws)
  | [], title, item, m, t => by simp [addTitleKeywords]
  | w :: ws, title, item, m, t => by
    have hstep : addTitleKeywords (w :: ws) title item m =
        addTitleKeywords ws title item
          (if w ≠ "" ∧ strIn w title then bucketAppend m w item else m) := rfl
    rw [hstep, mem_keysOf_addTitleKeywords ws title item _ t]
    by_cases hw : w ≠ "" ∧ strIn w title
    · simp only [if_pos hw, mem_keysOf_bucketAppend, List.mem_cons]
      constructor
      · rintro ((h | rfl) | ⟨h1, h2, h3⟩)
        · exact Or.inl h
        · exact Or.inr ⟨hw.1, hw.2, Or.inl rfl⟩
        · exact Or.inr ⟨h1, h2, Or.inr h3⟩
      · rintro (h | ⟨h1, h2, (rfl | h3)⟩)
        · exact Or.inl (Or.inl h)
        · exact Or.inl (Or.inr rfl)
        · exact Or.inr ⟨h1, h2, h3⟩
    · simp only [if_neg hw, List.mem_cons]
      constructor
      · rintro (h | ⟨h1, h2, h3⟩)
        · exact Or.inl h
        · exact Or.inr ⟨h1, h2, Or.inr h3⟩
      · rintro (h | ⟨h1, h2, (rfl | h3)⟩)
        · exact Or.inl h
        · exact absurd ⟨h1, h2⟩ hw
        · exact Or.inr ⟨h1, h2, h3⟩

theorem bucketOf_kwFold (ws : List String) :
    ∀ (L : List Enc) (m : Buckets) (t : String),
    bucketOf (kwFold ws L m) t =
      bucketOf m t ++
        L.flatMap (fun e =>
          if t ≠ "" ∧ strIn t e.title then List.replicate (ws.count t) e.item else [])
  | [], m, t => by simp [kwFold]
  | e :: L, m, t => by
    have hstep : kwFold ws (e :: L) m =
        kwFold ws L (addTitleKeywords ws e.title e.item m) := rfl
    rw [hstep, bucketOf_kwFold ws L _ t, bucketOf_addTitleKeywords]
    simp [List.append_assoc]

theorem mem_keysOf_kwFold (ws : List String) :
    ∀ (L : List Enc) (m : Buckets) (t : String),
    t ∈ keysOf (kwFold ws L m) ↔
      t ∈ keysOf m ∨ ∃ e ∈ L, t ≠ "" ∧ strIn t e.title ∧ t ∈ ws
  | [], m, t => by simp [kwFold]
  | e :: L, m, t => by
    have hstep : kwFold ws (e :: L) m =
        kwFold ws L (addTitleKeywords ws e.title e.item m) := rfl
    rw [hstep, mem_keysOf_kwFold ws L _ t, mem_keysOf_addTitleKeywords]
    constructor
    · rintro ((h | h) | ⟨e1, he1, h1⟩)
      · exact Or.inl h
      · exact Or.inr ⟨e, List.mem_cons_self e L, h⟩
      · exact Or.inr ⟨e1, List.mem_cons_of_mem e he1, h1⟩
    · rintro (h | ⟨e1, he1, h1⟩)
      · exact Or.inl (Or.inl h)
      · rcases List.mem_cons.mp he1 with rfl | he2
        · exact Or.inl (Or.inr h1)
        · exact Or.inr ⟨e1, he2, h1⟩

theorem bucketOf_pfFold :
    ∀ (L : List Enc) (m : Buckets) (pid : String),
    bucketOf (pfFold L m) pid =
      bucketOf m pid ++ (L.filter (fun e => e.pid == pid)).map (fun e => e.item)
  | [], m, pid => by simp [pfFold]
  | e :: L, m, pid => by
    have hstep : pfFold (e :: L) m = pfFold L (bucketAppend m e.pid e.item) := rfl
    rw [hstep, bucketOf_pfFold L _ pid, bucketOf_bucketAppend]
    by_cases h : e.pid = pid
    · simp [h, List.filter_cons, List.append_assoc]
    · simp [h, List.filter_cons]

theorem processTitles_eq (ws : List String) (N : List (String × String))
    (inc : Bool) (pid : String) :
    ∀ (titles : List (String × TitleInfo)) (ab : Buckets × Buckets),
    processTitles ws N inc pid ab titles =
      (pfFold (titles.map (fun p =>
          ⟨pid, p.1, p.2, mkNewsItem (nameOf N pid) p.1 p.2 inc⟩)) ab.1,
       kwFold ws (titles.map (fun p =>
          ⟨pid, p.1, p.2, mkNewsItem (nameOf N pid) p.1 p.2 inc⟩)) ab.2)
  | [], ab => by simp [processTitles, pfFold, kwFold]
  | p :: ts, ab => by
    have hstep : processTitles ws N inc pid ab (p :: ts) =
        processTitles ws N inc pid
          (bucketAppend ab.1 pid (mkNewsItem (nameOf N pid) p.1 p.2 inc),
           addTitleKeywords ws p.1 (mkNewsItem (nameOf N pid) p.1 p.2 inc) ab.2) ts := rfl
    rw [hstep, processTitles_eq ws N inc pid ts _]
    rfl

theorem buildBucketsAux (ws : List String) (N : List (String × String)) (inc : Bool) :
    ∀ (T : AllTitles) (ab : Buckets × Buckets),
    T.foldl (fun acc pt => processTitles ws N inc pt.1 acc pt.2) ab =
      (pfFold (encsOf N inc T) ab.1, kwFold ws (encsOf N inc T) ab.2)
  | [], ab => by simp [encsOf, pfFold, kwFold]
  | pt :: T, ab => by
    have h1 : (pt :: T).foldl (fun acc q => processTitles ws N inc q.1 acc q.2) ab =
        T.foldl (fun acc q => processTitles ws N inc q.1 acc q.2)
          (processTitles ws N inc pt.1 ab pt.2) := rfl
    rw [h1, buildBucketsAux ws N inc T _, processTitles_eq]
    simp [encsOf, pfFold, kwFold, List.foldl_append]

theorem buildBuckets_eq (wgs : List WordGroup) (N : List (String × String))
    (inc : Bool) (T : AllTitles) :
    buildBuckets wgs N inc T =
      (pfFold (encsOf N inc T) [], kwFold (flatWords wgs) (encsOf N inc T) []) :=
  buildBucketsAux (flatWords wgs) N inc T ([], [])

instance : IsTotal NewsItem (fun a b => a.rank ≤ b.rank) :=
  ⟨fun a b => Int.le_total a.rank b.rank⟩

instance : IsTrans NewsItem (fun a b => a.rank ≤ b.rank) :=
  ⟨fun _ _ _ h1 h2 => le_trans h1 h2⟩

instance : IsTotal (String × List NewsItem) (fun a b => b.2.length ≤ a.2.length) :=
  ⟨fun a b => Nat.le_total b.2.length a.2.length⟩

instance : IsTrans (String × List NewsItem) (fun a b => b.2.length ≤ a.2.length) :=
  ⟨fun _ _ _ h1 h2 => le_trans h2 h1⟩

theorem filter_orderedInsert {α : Type} (r : α → α → Prop) [DecidableRel r]
    (p : α → Bool) (h1 : ∀ a b, p a = true → p b = true → r a b) (a : α) :
    ∀ l : List α, (List.orderedInsert r a l).filter p =
      if p a then a :: l.filter p else l.filter p
  | [] => by
    by_cases ha : p a <;> simp [List.orderedInsert, List.filter, ha]
  | b :: l => by
    by_cases hr : r a b
    · simp only [List.orderedInsert, if_pos hr]
      by_cases ha : p a <;> simp [List.filter_cons, ha]
    · simp only [List.orderedInsert, if_neg hr]
      rw [List.filter_cons]
      by_cases hb : p b
      · have ha : ¬ p a = true := fun hc => hr (h1 a b hc hb)
        rw [if_neg ha]
        simp only [hb, if_pos]
        rw [filter_orderedInsert r p h1 a l, if_neg ha, List.filter_cons, if_pos hb]
      · simp only [hb]
        rw [filter_orderedInsert r p h1 a l, List.filter_cons]
        simp only [hb]
        by_cases ha : p a <;> simp [ha]

theorem filter_insertionSort {α : Type} (r : α → α → Prop) [DecidableRel r]
    (p : α → Bool) (h1 : ∀ a b, p a = true → p b = true → r a b) :
    ∀ l : List α, (List.insertionSort r l).filter p = l.filter p
  | [] => rfl
  | a :: l => by
    simp only [List.insertionSort]
    rw [filter_orderedInsert r p h1 a _, filter_insertionSort r p h1 l, List.filter_cons]

theorem filter_take_isPre {α : Type} (p : α → Bool) (n : Nat) (l : List α) :
    (l.take n).filter p <+: l.filter p := by
  conv_rhs => rw [← List.take_append_drop n l]
  rw [List.filter_append]
  exact List.prefix_append _ _

theorem sortByRank_pairwise (l : List NewsItem) :
    (sortByRank l).Pairwise (fun a b => a.rank ≤ b.rank) :=
  List.sorted_insertionSort (fun a b : NewsItem => a.rank ≤ b.rank) l

theorem sortBucketsByLen_pairwise (m : Buckets) :
    (sortBucketsByLen m).Pairwise (fun a b => b.2.length ≤ a.2.length) :=
  List.sorted_insertionSort
    (fun a b : String × List NewsItem => b.2.length ≤ a.2.length) m

theorem sortByRank_perm (l : List NewsItem) : (sortByRank l).Perm l :=
  List.perm_insertionSort (fun a b : NewsItem => a.rank ≤ b.rank) l

theorem sortBucketsByLen_perm (m : Buckets) : (sortBucketsByLen m).Perm m :=
  List.perm_insertionSort
    (fun a b : String × List NewsItem => b.2.length ≤ a.2.length) m

theorem sortByRank_filter_rank (l : List NewsItem) (rk : Int) :
    (sortByRank l).filter (fun x => decide (x.rank = rk)) =
      l.filter (fun x => decide (x.rank = rk)) := by
  apply filter_insertionSort
  intro a b ha hb
  have ha2 : a.rank = rk := of_decide_eq_true ha
  have hb2 : b.rank = rk := of_decide_eq_true hb
  rw [ha2, hb2]

theorem sortBucketsByLen_filter_len (m : Buckets) (c : Nat) :
    (sortBucketsByLen m).filter (fun p => decide (p.2.length = c)) =
      m.filter (fun p => decide (p.2.length = c)) := by
  apply filter_insertionSort
  intro a b ha hb
  have ha2 : a.2.length = c := of_decide_eq_true ha
  have hb2 : b.2.length = c := of_decide_eq_true hb
  rw [ha2, hb2]


theorem summaryBody_ok_inv {env : Env} {args : SummaryArgs} {out : SummaryOut}
    (h : summaryBody env args = .ok out) :
    ∃ mode ds target T N ts,
      env.vMode (some args.mode) ["daily", "current", "incremental"] "daily" = .ok mode ∧
      resolveSummaryDate env args.date_range = .ok (ds, target) ∧
      env.readAllTitles target = .ok (T, N, ts) ∧
      ((T = [] ∧ out = .notFound ds) ∨
       (T ≠ [] ∧ ∃ W, env.parseFreqWords = .ok W ∧
          out = summaryCore W N args T target mode)) := by
  unfold summaryBody at h
  split at h
  · simp at h
  rename_i mode hm
  split at h
  · simp at h
  rename_i ds target hres
  split at h
  · simp at h
  rename_i T N ts hread
  split at h
  · rename_i hT
    simp only [Except.ok.injEq] at h
    exact ⟨mode, ds, target, T, N, ts, hm, hres, hread, Or.inl ⟨hT, h.symm⟩⟩
  rename_i hT
  split at h
  · simp at h
  rename_i W hW
  simp only [Except.ok.injEq] at h
  exact ⟨mode, ds, target, T, N, ts, hm, hres, hread, Or.inr ⟨hT, W, hW, h.symm⟩⟩

/-- Concrete store sample used by the evaluation theorems. -/
def testStore : AllTitles :=
  [("p1", [("AI breakthrough", ⟨[3, 5], none, none⟩),
           ("New AI chip", ⟨[1], none, none⟩),
           ("nothing here", ⟨[2], none, none⟩)]),
   ("p2", [("AI rules", ⟨[4], some "u", some "mu"⟩)])]

/-- Concrete platform names used by the evaluation theorems. -/
def testNames : List (String × String) :=
  [("p1", "Platform One"), ("p2", "Platform Two")]

/-- Concrete taxonomy used by the evaluation theorems. -/
def testW : List WordGroup :=
  [⟨[], [.strT "AI", .dictT (some "chip")]⟩]

/-- Concrete collaborator environment: benign validators, fixed store data
(with an empty store for 2025-02-02), fixed taxonomy. -/
def testEnv : Env where
  today := ⟨2025, 6, 1⟩
  subDays := fun dt _ => dt
  vPlatforms := fun p => .ok p
  vLimit := fun l dflt => .ok (l.getD dflt)
  vKeyword := fun k => .ok k
  vMode := fun mo _ dflt => .ok (mo.getD dflt)
  vTopN := fun t dflt => .ok (t.getD dflt)
  vDateRange := fun _ => .ok none
  svcLatestNews := fun _ _ _ => .ok []
  svcSearchKeyword := fun _ _ _ _ => .ok [("results", .arr [])]
  svcTrending := fun _ _ _ => .ok [("topics", .arr [])]
  svcNewsByDate := fun _ _ _ _ => .ok []
  svcLatestRss := fun _ _ _ => .ok []
  svcSearchRss := fun _ _ _ _ _ => .ok []
  svcRssStatus := .ok [("feeds", .arr [])]
  readAllTitles := fun dt =>
    if dt = ⟨2025, 2, 2⟩ then .ok ([], [], [])
    else .ok (testStore, testNames, ["09时00分"])
  parseFreqWords := .ok testW

/-- Claim C2: in `get_news_for_summary` with keyword grouping, for every
title and every keyword group, the flattened required+normal candidate
terms that are non-empty, case-sensitive substrings of the title each
receive the title item in the bucket keyed by that literal term; a title
matching two distinct terms of one group lands in both buckets, and a
bucket key always has a matching title. -/
theorem claim_C2 (wgs : List WordGroup) (N : List (String × String))
    (inc : Bool) (T : AllTitles) :
    (∀ e ∈ encsOf N inc T, ∀ w ∈ flatWords wgs, w ≠ "" → strIn w e.title →
        e.item ∈ bucketOf (buildBuckets wgs N inc T).2 w) ∧
    (∀ e ∈ encsOf N inc T, ∀ g ∈ wgs, ∀ w1 ∈ groupWords g, ∀ w2 ∈ groupWords g,
        w1 ≠ w2 → w1 ≠ "" → w2 ≠ "" → strIn w1 e.title → strIn w2 e.title →
        e.item ∈ bucketOf (buildBuckets wgs N inc T).2 w1 ∧
        e.item ∈ bucketOf (buildBuckets wgs N inc T).2 w2) ∧
    (∀ w, w ∈ keysOf (buildBuckets wgs N inc T).2 →
        w ≠ "" ∧ w ∈ flatWords wgs ∧ ∃ e ∈ encsOf N inc T, strIn w e.title) := by
  have hkb : (buildBuckets wgs N inc T).2 =
      kwFold (flatWords wgs) (encsOf N inc T) [] := by
    rw [buildBuckets_eq]
  have hflat : flatWords wgs = wgs.flatMap groupWords := rfl
  have h1 : ∀ e ∈ encsOf N inc T, ∀ w ∈ flatWords wgs, w ≠ "" → strIn w e.title →
      e.item ∈ bucketOf (buildBuckets wgs N inc T).2 w := by
    intro e he w hw hne hin
    rw [hkb, bucketOf_kwFold]
    simp only [bucketOf, List.nil_append]
    refine List.mem_flatMap.mpr ⟨e, he, ?_⟩
    rw [if_pos ⟨hne, hin⟩]
    refine List.mem_replicate.mpr ⟨?_, rfl⟩
    have hc : 0 < (flatWords wgs).count w := List.count_pos_iff.mpr hw
    omega
  refine ⟨h1, ?_, ?_⟩
  · intro e he g hg w1 hw1 w2 hw2 _ hne1 hne2 hin1 hin2
    have hw1f : w1 ∈ flatWords wgs := by
      rw [hflat]; exact List.mem_flatMap.mpr ⟨g, hg, hw1⟩
    have hw2f : w2 ∈ flatWords wgs := by
      rw [hflat]; exact List.mem_flatMap.mpr ⟨g, hg, hw2⟩
    exact ⟨h1 e he w1 hw1f hne1 hin1, h1 e he w2 hw2f hne2 hin2⟩
  · intro w hwk
    rw [hkb] at hwk
    rcases (mem_keysOf_kwFold (flatWords wgs) (encsOf N inc T) [] w).mp hwk with
      h | ⟨e, he, hne, hin, hwf⟩
    · simp [keysOf] at h
    · exact ⟨hne, hwf, e, he, hin⟩

theorem claim_C2_witness :
    (mkNewsItem "Platform One" "AI breakthrough" ⟨[3, 5], none, none⟩ false) ∈
      bucketOf (buildBuckets testW testNames false testStore).2 "AI" :=
  (claim_C2 testW testNames false testStore).1
    ⟨"p1", "AI breakthrough", ⟨[3, 5], none, none⟩,
      mkNewsItem "Platform One" "AI breakthrough" ⟨[3, 5], none, none⟩ false⟩
    (by decide) "AI" (by decide) (by decide) (by decide)

theorem length_flatMap_replicateIf (k : Nat) (t : String) :
    ∀ L : List Enc,
    (L.flatMap (fun e =>
        if strIn t e.title then List.replicate k e.item else [])).length =
      k * L.countP (fun e => decide (strIn t e.title))
  | [] => by simp
  | e :: L => by
    by_cases h : strIn t e.title <;>
      (simp [h, length_flatMap_replicateIf k t L, List.countP_cons]; try ring)

/-- Claim C10 (amended): candidate terms are not deduplicated — a term
occurring k times in the flattened taxonomy appends each matching title item
k times to that bucket, so the reported count and `total_news` count the
title k times; the returned `news` list also does so whenever the bucket
fits under `max_news_per_keyword` (truncation can otherwise drop copies). -/
theorem claim_C10 (wgs : List WordGroup) (N : List (String × String)) (inc : Bool)
    (T : AllTitles) (t : String) (hne : t ≠ "") :
    (bucketOf (buildBuckets wgs N inc T).2 t =
      (encsOf N inc T).flatMap (fun e =>
        if strIn t e.title then List.replicate ((flatWords wgs).count t) e.item
        else [])) ∧
    ((bucketOf (buildBuckets wgs N inc T).2 t).length =
      (flatWords wgs).count t *
        (encsOf N inc T).countP (fun e => decide (strIn t e.title))) ∧
    (∀ (kb : Buckets) (cap : Nat),
        totalNewsKw (keywordGroupsOf kb cap) =
          (kb.map (fun p => p.2.length)).sum) ∧
    (∀ (kb : Buckets) (cap : Nat) (B : List NewsItem),
        (t, B) ∈ kb → B.length ≤ cap →
        (KeywordGroupResult.mk t B.length (sortByRank B)) ∈ keywordGroupsOf kb cap ∧
        ∀ x : NewsItem, (sortByRank B).count x = B.count x) := by
  have hkb : (buildBuckets wgs N inc T).2 =
      kwFold (flatWords wgs) (encsOf N inc T) [] := by
    rw [buildBuckets_eq]
  have hcond : ∀ e : Enc, (t ≠ "" ∧ strIn t e.title) = strIn t e.title := by
    intro e
    exact propext ⟨fun h => h.2, fun h => ⟨hne, h⟩⟩
  have ha : bucketOf (buildBuckets wgs N inc T).2 t =
      (encsOf N inc T).flatMap (fun e =>
        if strIn t e.title then List.replicate ((flatWords wgs).count t) e.item
        else []) := by
    rw [hkb, bucketOf_kwFold]
    simp only [bucketOf, List.nil_append, hcond]
  refine ⟨ha, ?_, ?_, ?_⟩
  · rw [ha]
    exact length_flatMap_replicateIf ((flatWords wgs).count t) t (encsOf N inc T)
  · intro kb cap
    have hp : List.Perm ((sortBucketsByLen kb).map (fun p => p.2.length))
        (kb.map (fun p => p.2.length)) :=
      (sortBucketsByLen_perm kb).map (fun p => p.2.length)
    calc totalNewsKw (keywordGroupsOf kb cap)
        = ((sortBucketsByLen kb).map (fun p => p.2.length)).sum := by
          simp only [totalNewsKw, keywordGroupsOf, List.map_map]
          rfl
      _ = (kb.map (fun p => p.2.length)).sum := hp.sum_eq
  · intro kb cap B hmem hle
    have hlen : (sortByRank B).length = B.length := (sortByRank_perm B).length_eq
    have htake : (sortByRank B).take cap = sortByRank B := by
      apply List.take_of_length_le
      rw [hlen]
      exact hle
    constructor
    · have hmem2 : (t, B) ∈ sortBucketsByLen kb :=
        (sortBucketsByLen_perm kb).mem_iff.mpr hmem
      have := List.mem_map_of_mem
        (fun p : String × List NewsItem =>
          KeywordGroupResult.mk p.1 p.2.length ((sortByRank p.2).take cap)) hmem2
      simpa [keywordGroupsOf, htake] using this
    · intro x
      exact (sortByRank_perm B).count_eq x

/-- Environment with a duplicated taxonomy term and a one-title store. -/
def dupEnv : Env :=
  { testEnv with
    readAllTitles := fun _ => .ok ([("p1", [("AI story", ⟨[1], none, none⟩)])], [], [])
    parseFreqWords := .ok [⟨[], [.strT "AI"]⟩, ⟨[], [.strT "AI"]⟩] }

/-- Item produced for the single title of `dupEnv`. -/
def dupItem : NewsItem := ⟨"AI story", "p1", 1, true, none, none⟩

/-- Claim C10 counterexample: with the term `AI` occurring twice in the
taxonomy and `max_news_per_keyword = 1`, the single matching title is
appended twice (count 2) but the returned `news` list holds the item only
once, not the k = 2 times the claim asserts. -/
theorem claim_C10_cex :
    summaryBody dupEnv ⟨.noneA, "daily", "keyword", 1, false⟩ =
      .ok (.kwOut ⟨2025, 6, 1⟩ "daily" [⟨"AI", 2, [dupItem]⟩]) ∧
    [dupItem].count dupItem = 1 ∧ ¬ [dupItem].count dupItem = 2 := by
  exact ⟨rfl, by decide, by decide⟩

theorem claim_C10_witness :
    (bucketOf (buildBuckets [⟨[], [.strT "AI"]⟩, ⟨[], [.strT "AI"]⟩] [] false
        [("p1", [("AI story", ⟨[1], none, none⟩)])]).2 "AI").length = 2 * 1 :=
  (claim_C10 [⟨[], [.strT "AI"]⟩, ⟨[], [.strT "AI"]⟩] [] false
      [("p1", [("AI story", ⟨[1], none, none⟩)])] "AI" (by decide)).2.1

/-- Item projected from the `New AI chip` sample record. -/
def itemChip : NewsItem := ⟨"New AI chip", "Platform One", 1, true, none, none⟩

/-- Item projected from the `AI breakthrough` sample record. -/
def itemBreak : NewsItem := ⟨"AI breakthrough", "Platform One", 3, false, none, none⟩

/-- Item projected from the `nothing here` sample record. -/
def itemNothing : NewsItem := ⟨"nothing here", "Platform One", 2, true, none, none⟩

/-- Item projected from the `AI rules` sample record. -/
def itemRules : NewsItem := ⟨"AI rules", "Platform Two", 4, true, none, none⟩

/-- Keyword groups returned for the sample store with cap 2. -/
def c3Groups : List KeywordGroupResult :=
  [⟨"AI", 3, [itemChip, itemBreak]⟩, ⟨"chip", 1, [itemChip]⟩]

theorem capOf_of_pos {args : SummaryArgs} (hk : 1 ≤ args.maxNews) :
    capOf args = args.maxNews.toNat := by
  unfold capOf
  rw [if_neg (by omega)]

theorem summaryBody_kwOut_inv {env : Env} {args : SummaryArgs} {dt : Date}
    {mo : String} {groups : List KeywordGroupResult}
    (h : summaryBody env args = .ok (.kwOut dt mo groups)) :
    ∃ ds T N ts W,
      resolveSummaryDate env args.date_range = .ok (ds, dt) ∧
      env.readAllTitles dt = .ok (T, N, ts) ∧
      env.parseFreqWords = .ok W ∧ groupByOf args = "keyword" ∧
      groups = keywordGroupsOf (buildBuckets W N args.include_url T).2 (capOf args) := by
  obtain ⟨mode, ds, target, T, N, ts, hm, hres, hread, hcase⟩ := summaryBody_ok_inv h
  rcases hcase with ⟨hT, hout⟩ | ⟨hT, W, hW, hout⟩
  · simp at hout
  · simp only [summaryCore] at hout
    by_cases hgb : groupByOf args = "keyword"
    · rw [if_pos hgb] at hout
      simp only [SummaryOut.kwOut.injEq] at hout
      obtain ⟨rfl, rfl, rfl⟩ := hout
      exact ⟨ds, T, N, ts, W, hres, hread, hW, hgb, rfl⟩
    · rw [if_neg hgb] at hout
      simp at hout

theorem summaryBody_pfOut_inv {env : Env} {args : SummaryArgs} {dt : Date}
    {mo : String} {groups : List PlatformGroupResult}
    (h : summaryBody env args = .ok (.pfOut dt mo groups)) :
    ∃ ds T N ts W,
      resolveSummaryDate env args.date_range = .ok (ds, dt) ∧
      env.readAllTitles dt = .ok (T, N, ts) ∧
      env.parseFreqWords = .ok W ∧ ¬ groupByOf args = "keyword" ∧
      groups = platformGroupsOf N (buildBuckets W N args.include_url T).1 (capOf args) := by
  obtain ⟨mode, ds, target, T, N, ts, hm, hres, hread, hcase⟩ := summaryBody_ok_inv h
  rcases hcase with ⟨hT, hout⟩ | ⟨hT, W, hW, hout⟩
  · simp at hout
  · simp only [summaryCore] at hout
    by_cases hgb : groupByOf args = "keyword"
    · rw [if_pos hgb] at hout
      simp at hout
    · rw [if_neg hgb] at hout
      simp only [SummaryOut.pfOut.injEq] at hout
      obtain ⟨rfl, rfl, rfl⟩ := hout
      exact ⟨ds, T, N, ts, W, hres, hread, hW, hgb, rfl⟩

theorem keywordGroupsOf_map_key_count (kb : Buckets) (cap1 cap2 : Nat) :
    (keywordGroupsOf kb cap1).map (fun g => (g.keyword, g.count)) =
      (keywordGroupsOf kb cap2).map (fun g => (g.keyword, g.count)) := by
  simp only [keywordGroupsOf, List.map_map]
  rfl

/-- Claim C3: with `max_news_per_keyword = k ≥ 1`, every returned group has
a `news` list of length `min(total_matches, k)` while the `count` field
keeps the pre-truncation bucket size (in particular it does not depend on
the cap), for both grouping modes. -/
theorem claim_C3 (env : Env) (args : SummaryArgs) (hk : 1 ≤ args.maxNews) :
    (∀ dt mo groups, summaryBody env args = .ok (.kwOut dt mo groups) →
       ∀ g ∈ groups, g.news.length = min g.count args.maxNews.toNat ∧
         ∃ B : List NewsItem, g.count = B.length ∧
           g.news = (sortByRank B).take args.maxNews.toNat) ∧
    (∀ dt mo groups, summaryBody env args = .ok (.pfOut dt mo groups) →
       ∀ g ∈ groups, g.news.length = min g.count args.maxNews.toNat ∧
         ∃ B : List NewsItem, g.count = B.length ∧
           g.news = (sortByRank B).take args.maxNews.toNat) ∧
    (∀ k2 : Int, 1 ≤ k2 →
       ∀ dt mo groups dt2 mo2 groups2,
         summaryBody env args = .ok (.kwOut dt mo groups) →
         summaryBody env { args with maxNews := k2 } = .ok (.kwOut dt2 mo2 groups2) →
         groups.map (fun g => (g.keyword, g.count)) =
           groups2.map (fun g => (g.keyword, g.count))) := by
  have hcap : capOf args = args.maxNews.toNat := capOf_of_pos hk
  refine ⟨?_, ?_, ?_⟩
  · intro dt mo groups h g hg
    obtain ⟨ds, T, N, ts, W, hres, hread, hW, hgb, rfl⟩ := summaryBody_kwOut_inv h
    obtain ⟨p, hp, rfl⟩ := List.mem_map.mp hg
    constructor
    · show (List.take (capOf args) (sortByRank p.2)).length = _
      rw [hcap, List.length_take, (sortByRank_perm p.2).length_eq]
      exact Nat.min_comm _ _
    · exact ⟨p.2, rfl, by rw [hcap]⟩
  · intro dt mo groups h g hg
    obtain ⟨ds, T, N, ts, W, hres, hread, hW, hgb, rfl⟩ := summaryBody_pfOut_inv h
    obtain ⟨p, hp, rfl⟩ := List.mem_map.mp hg
    constructor
    · show (List.take (capOf args) (sortByRank p.2)).length = _
      rw [hcap, List.length_take, (sortByRank_perm p.2).length_eq]
      exact Nat.min_comm _ _
    · exact ⟨p.2, rfl, by rw [hcap]⟩
  · intro k2 hk2 dt mo groups dt2 mo2 groups2 h h2
    obtain ⟨ds, T, N, ts, W, hres, hread, hW, hgb, rfl⟩ := summaryBody_kwOut_inv h
    obtain ⟨ds2, T2, N2, ts2, W2, hres2, hread2, hW2, hgb2, rfl⟩ :=
      summaryBody_kwOut_inv h2
    rw [show ({ args with maxNews := k2 } : SummaryArgs).date_range =
        args.date_range from rfl] at hres2
    have hpair := hres.symm.trans hres2
    simp only [Except.ok.injEq, Prod.mk.injEq] at hpair
    obtain ⟨rfl, rfl⟩ := hpair
    have hTN := hread.symm.trans hread2
    simp only [Except.ok.injEq, Prod.mk.injEq] at hTN
    obtain ⟨rfl, rfl, rfl⟩ := hTN
    have hWW := hW.symm.trans hW2
    simp only [Except.ok.injEq] at hWW
    obtain rfl := hWW
    rw [show ({ args with maxNews := k2 } : SummaryArgs).include_url =
        args.include_url from rfl]
    exact keywordGroupsOf_map_key_count _ (capOf args)
      (capOf { args with maxNews := k2 })

theorem claim_C3_witness :
    (KeywordGroupResult.mk "AI" 3 [itemChip, itemBreak]).news.length =
      min (KeywordGroupResult.mk "AI" 3 [itemChip, itemBreak]).count
        ((2 : Int).toNat) ∧
    ∃ B : List NewsItem,
      (KeywordGroupResult.mk "AI" 3 [itemChip, itemBreak]).count = B.length ∧
      (KeywordGroupResult.mk "AI" 3 [itemChip, itemBreak]).news =
        (sortByRank B).take ((2 : Int).toNat) :=
  (claim_C3 testEnv ⟨.noneA, "daily", "keyword", 2, false⟩ (by decide)).1
    ⟨2025, 6, 1⟩ "daily" c3Groups rfl
    (KeywordGroupResult.mk "AI" 3 [itemChip, itemBreak]) (by decide)

/-- Claim C4: inside every returned group the `news` ranks are
non-decreasing, and the list is the rank-stable sort of the bucket list
truncated to the cap, so items of equal rank keep their encounter order
(the filtered equal-rank subsequence is a prefix of the bucket one). -/
theorem claim_C4 (env : Env) (args : SummaryArgs) :
    (∀ dt mo groups, summaryBody env args = .ok (.kwOut dt mo groups) →
       ∀ g ∈ groups,
         g.news.Pairwise (fun a b => a.rank ≤ b.rank) ∧
         ∃ T N ts W B,
           env.readAllTitles dt = .ok (T, N, ts) ∧
           env.parseFreqWords = .ok W ∧
           (g.keyword, B) ∈ (buildBuckets W N args.include_url T).2 ∧
           g.news = (sortByRank B).take (capOf args) ∧
           ∀ rk : Int, g.news.filter (fun x => decide (x.rank = rk)) <+:
             B.filter (fun x => decide (x.rank = rk))) ∧
    (∀ dt mo groups, summaryBody env args = .ok (.pfOut dt mo groups) →
       ∀ g ∈ groups,
         g.news.Pairwise (fun a b => a.rank ≤ b.rank) ∧
         ∃ T N ts W B,
           env.readAllTitles dt = .ok (T, N, ts) ∧
           env.parseFreqWords = .ok W ∧
           (g.platform, B) ∈ (buildBuckets W N args.include_url T).1 ∧
           g.news = (sortByRank B).take (capOf args) ∧
           ∀ rk : Int, g.news.filter (fun x => decide (x.rank = rk)) <+:
             B.filter (fun x => decide (x.rank = rk))) := by
  constructor
  · intro dt mo groups h g hg
    obtain ⟨ds, T, N, ts, W, hres, hread, hW, hgb, rfl⟩ := summaryBody_kwOut_inv h
    obtain ⟨p, hp, rfl⟩ := List.mem_map.mp hg
    have hpw := sortByRank_pairwise p.2
    refine ⟨hpw.sublist (List.take_sublist _ _), T, N, ts, W, p.2, hread, hW,
      (sortBucketsByLen_perm _).mem_iff.mp hp, rfl, ?_⟩
    intro rk
    have h1 := filter_take_isPre (fun x : NewsItem => decide (x.rank = rk))
      (capOf args) (sortByRank p.2)
    rw [sortByRank_filter_rank] at h1
    exact h1
  · intro dt mo groups h g hg
    obtain ⟨ds, T, N, ts, W, hres, hread, hW, hgb, rfl⟩ := summaryBody_pfOut_inv h
    obtain ⟨p, hp, rfl⟩ := List.mem_map.mp hg
    have hpw := sortByRank_pairwise p.2
    refine ⟨hpw.sublist (List.take_sublist _ _), T, N, ts, W, p.2, hread, hW,
      (sortBucketsByLen_perm _).mem_iff.mp hp, rfl, ?_⟩
    intro rk
    have h1 := filter_take_isPre (fun x : NewsItem => decide (x.rank = rk))
      (capOf args) (sortByRank p.2)
    rw [sortByRank_filter_rank] at h1
    exact h1

theorem claim_C4_witness :
    (KeywordGroupResult.mk "AI" 3 [itemChip, itemBreak]).news.Pairwise
      (fun a b => a.rank ≤ b.rank) ∧
    ∃ T N ts W B,
      testEnv.readAllTitles ⟨2025, 6, 1⟩ = .ok (T, N, ts) ∧
      testEnv.parseFreqWords = .ok W ∧
      ((KeywordGroupResult.mk "AI" 3 [itemChip, itemBreak]).keyword, B) ∈
        (buildBuckets W N false T).2 ∧
      (KeywordGroupResult.mk "AI" 3 [itemChip, itemBreak]).news =
        (sortByRank B).take (capOf ⟨.noneA, "daily", "keyword", 2, false⟩) ∧
      ∀ rk : Int,
        (KeywordGroupResult.mk "AI" 3 [itemChip, itemBreak]).news.filter
          (fun x => decide (x.rank = rk)) <+:
          B.filter (fun x => decide (x.rank = rk)) :=
  (claim_C4 testEnv ⟨.noneA, "daily", "keyword", 2, false⟩).1
    ⟨2025, 6, 1⟩ "daily" c3Groups rfl
    (KeywordGroupResult.mk "AI" 3 [itemChip, itemBreak]) (by decide)

/-- Platform groups returned for the sample store (P1 has 3 titles, P2 has
1, so P1 is listed first). -/
def c5Groups : List PlatformGroupResult :=
  [⟨"p1", "Platform One", 3, [itemChip, itemNothing, itemBreak]⟩,
   ⟨"p2", "Platform Two", 1, [itemRules]⟩]

/-- Claim C5: the returned group sequence is sorted by descending member
count, and groups of equal count keep bucket-insertion order: filtering the
output at any count value equals mapping the bucket dictionary filtered at
that value, in its insertion order. -/
theorem claim_C5 (env : Env) (args : SummaryArgs) :
    (∀ dt mo groups, summaryBody env args = .ok (.kwOut dt mo groups) →
       groups.Pairwise (fun g1 g2 => g2.count ≤ g1.count) ∧
       ∃ T N ts W,
         env.readAllTitles dt = .ok (T, N, ts) ∧ env.parseFreqWords = .ok W ∧
         ∀ c : Nat, groups.filter (fun g => decide (g.count = c)) =
           ((buildBuckets W N args.include_url T).2.filter
             (fun p => decide (p.2.length = c))).map
             (fun p => KeywordGroupResult.mk p.1 p.2.length
               ((sortByRank p.2).take (capOf args)))) ∧
    (∀ dt mo groups, summaryBody env args = .ok (.pfOut dt mo groups) →
       groups.Pairwise (fun g1 g2 => g2.count ≤ g1.count) ∧
       ∃ T N ts W,
         env.readAllTitles dt = .ok (T, N, ts) ∧ env.parseFreqWords = .ok W ∧
         ∀ c : Nat, groups.filter (fun g => decide (g.count = c)) =
           ((buildBuckets W N args.include_url T).1.filter
             (fun p => decide (p.2.length = c))).map
             (fun p => PlatformGroupResult.mk p.1 (nameOf N p.1) p.2.length
               ((sortByRank p.2).take (capOf args)))) := by
  constructor
  · intro dt mo groups h
    obtain ⟨ds, T, N, ts, W, hres, hread, hW, hgb, rfl⟩ := summaryBody_kwOut_inv h
    constructor
    · simp only [keywordGroupsOf]
      exact List.pairwise_map.mpr (sortBucketsByLen_pairwise _)
    · refine ⟨T, N, ts, W, hread, hW, ?_⟩
      intro c
      simp only [keywordGroupsOf]
      rw [List.filter_map]
      rw [show ((fun g : KeywordGroupResult => decide (g.count = c)) ∘
          (fun p : String × List NewsItem =>
            KeywordGroupResult.mk p.1 p.2.length ((sortByRank p.2).take (capOf args)))) =
          (fun p : String × List NewsItem => decide (p.2.length = c)) from rfl]
      rw [sortBucketsByLen_filter_len]
  · intro dt mo groups h
    obtain ⟨ds, T, N, ts, W, hres, hread, hW, hgb, rfl⟩ := summaryBody_pfOut_inv h
    constructor
    · simp only [platformGroupsOf]
      exact List.pairwise_map.mpr (sortBucketsByLen_pairwise _)
    · refine ⟨T, N, ts, W, hread, hW, ?_⟩
      intro c
      simp only [platformGroupsOf]
      rw [List.filter_map]
      rw [show ((fun g : PlatformGroupResult => decide (g.count = c)) ∘
          (fun p : String × List NewsItem =>
            PlatformGroupResult.mk p.1 (nameOf N p.1) p.2.length
              ((sortByRank p.2).take (capOf args)))) =
          (fun p : String × List NewsItem => decide (p.2.length = c)) from rfl]
      rw [sortBucketsByLen_filter_len]

theorem claim_C5_witness :
    c5Groups.Pairwise (fun g1 g2 => g2.count ≤ g1.count) ∧
    ∃ T N ts W,
      testEnv.readAllTitles ⟨2025, 6, 1⟩ = .ok (T, N, ts) ∧
      testEnv.parseFreqWords = .ok W ∧
      ∀ c : Nat, c5Groups.filter (fun g => decide (g.count = c)) =
        ((buildBuckets W N false T).1.filter
          (fun p => decide (p.2.length = c))).map
          (fun p => PlatformGroupResult.mk p.1 (nameOf N p.1) p.2.length
            ((sortByRank p.2).take
              (capOf ⟨.noneA, "daily", "platform", 10, false⟩))) :=
  (claim_C5 testEnv ⟨.noneA, "daily", "platform", 10, false⟩).2
    ⟨2025, 6, 1⟩ "daily" c5Groups rfl

/-- Claim C7: when the store returns an empty titles mapping, the call
returns the `DATA_NOT_FOUND` failure envelope; when the mapping is
non-empty the early-return branch is not taken and (with the taxonomy
loaded) the call produces a success envelope with no error field. -/
theorem claim_C7 (env : Env) (args : SummaryArgs) (mode : String) (ds : String)
    (target : Date) (T : AllTitles) (N : List (String × String)) (ts : List String)
    (hm : env.vMode (some args.mode) ["daily", "current", "incremental"] "daily" =
      .ok mode)
    (hres : resolveSummaryDate env args.date_range = .ok (ds, target))
    (hread : env.readAllTitles target = .ok (T, N, ts)) :
    (T = [] → get_news_for_summary env args = notFoundDict ds) ∧
    (T ≠ [] → ∀ W, env.parseFreqWords = .ok W →
       successFlag (get_news_for_summary env args) = true ∧
       errCodeOf (get_news_for_summary env args) = none) := by
  have hbody : summaryBody env args =
      (if T = [] then Except.ok (SummaryOut.notFound ds)
       else
        match env.parseFreqWords with
        | .error e => .error e
        | .ok W => .ok (summaryCore W N args T target mode)) := by
    simp only [summaryBody, hm, hres, hread]
  constructor
  · intro hT
    unfold get_news_for_summary
    rw [hbody, if_pos hT]
    rfl
  · intro hT W hW
    have hval : get_news_for_summary env args =
        summaryOutDict (summaryCore W N args T target mode) := by
      unfold get_news_for_summary
      rw [hbody, if_neg hT, hW]
      rfl
    rw [hval]
    by_cases hgb : groupByOf args = "keyword"
    · rw [show summaryCore W N args T target mode =
          .kwOut target mode (keywordGroupsOf
            (buildBuckets W N args.include_url T).2 (capOf args)) from by
        simp only [summaryCore]
        rw [if_pos hgb]]
      exact ⟨rfl, rfl⟩
    · rw [show summaryCore W N args T target mode =
          .pfOut target mode (platformGroupsOf N
            (buildBuckets W N args.include_url T).1 (capOf args)) from by
        simp only [summaryCore]
        rw [if_neg hgb]]
      exact ⟨rfl, rfl⟩

theorem claim_C7_witness :
    get_news_for_summary testEnv ⟨.strA "2025-02-02", "daily", "keyword", 10, false⟩ =
      notFoundDict "2025-02-02" :=
  (claim_C7 testEnv ⟨.strA "2025-02-02", "daily", "keyword", 10, false⟩ "daily"
    "2025-02-02" ⟨2025, 2, 2⟩ [] [] [] rfl rfl rfl).1 rfl

/-- Claim C8: the `is_new` flag of every projected item is true exactly when
the rank history of its record has length one, for the projection itself and
for every record encountered by the scan of `get_news_for_summary`. -/
theorem claim_C8 :
    (∀ (pn t : String) (info : TitleInfo) (inc : Bool),
        (mkNewsItem pn t info inc).is_new = true ↔ info.ranks.length = 1) ∧
    (∀ (N : List (String × String)) (inc : Bool) (T : AllTitles) (e : Enc),
        e ∈ encsOf N inc T → (e.item.is_new = true ↔ e.info.ranks.length = 1)) := by
  have h1 : ∀ (pn t : String) (info : TitleInfo) (inc : Bool),
      (mkNewsItem pn t info inc).is_new = true ↔ info.ranks.length = 1 := by
    intro pn t info inc
    simp [mkNewsItem]
  refine ⟨h1, ?_⟩
  intro N inc T e he
  simp only [encsOf, List.mem_flatMap, List.mem_map] at he
  obtain ⟨pt, hpt, p, hp, rfl⟩ := he
  exact h1 _ _ _ _

theorem claim_C8_witness :
    ((⟨"p1", "New AI chip", ⟨[1], none, none⟩, itemChip⟩ : Enc).item.is_new = true ↔
      (⟨"p1", "New AI chip", ⟨[1], none, none⟩, itemChip⟩ : Enc).info.ranks.length = 1) :=
  claim_C8.2 testNames false testStore
    ⟨"p1", "New AI chip", ⟨[1], none, none⟩, itemChip⟩ (by decide)

/-- Claim C6 (amended): `search_rss` replaces an out-of-range `days` value
(outside `[1, 30]`) by the default 7 — it does not clamp to the nearest
bound — and passes in-range values through unchanged; the value used for
the search is echoed in the `days` field. -/
theorem claim_C6 (env : Env) (keyword : String) (feeds : Option (List String))
    (days : Int) (limit : Option Int) (ics : Bool) (kw2 : String) (lim : Int)
    (rss : List JVal)
    (hk : env.vKeyword keyword = .ok kw2)
    (hl : env.vLimit limit 50 = .ok lim)
    (hs : env.svcSearchRss kw2 feeds (usedDays days) lim ics = .ok rss) :
    daysField (search_rss env keyword feeds days limit ics) =
      some (usedDays days) ∧
    usedDays days = (if days < 1 ∨ 30 < days then 7 else days) ∧
    (1 ≤ days → days ≤ 30 → usedDays days = days) := by
  have hbody : searchRssBody env keyword feeds days limit ics =
      .ok [("rss", .arr rss), ("total", .n rss.length), ("keyword", .s kw2),
           ("feeds", optStrListJ feeds), ("days", .n (usedDays days)),
           ("success", .b true)] := by
    simp only [searchRssBody, hk, hl, hs]
  refine ⟨?_, rfl, ?_⟩
  · unfold search_rss
    rw [hbody]
    rfl
  · intro h1 h2
    unfold usedDays
    rw [if_neg (by omega)]

/-- Claim C6 counterexample: at `days = 31` the used and echoed value is the
default 7, not the clamped bound 30 that the claim requires; at `days = 0`
it is 7, not 1. -/
theorem claim_C6_cex :
    daysField (search_rss testEnv "k" none 31 none false) = some 7 ∧
    ¬ daysField (search_rss testEnv "k" none 31 none false) = some 30 ∧
    daysField (search_rss testEnv "k" none 0 none false) = some 7 ∧
    ¬ daysField (search_rss testEnv "k" none 0 none false) = some 1 := by
  refine ⟨rfl, by decide, rfl, by decide⟩

theorem claim_C6_witness :
    daysField (search_rss testEnv "k" none 31 none false) =
      some (usedDays 31) ∧
    usedDays 31 = (if (31 : Int) < 1 ∨ 30 < (31 : Int) then 7 else 31) ∧
    (1 ≤ (31 : Int) → (31 : Int) ≤ 30 → usedDays 31 = 31) :=
  claim_C6 testEnv "k" none 31 none false "k" 50 [] rfl rfl rfl

/-- JSON-serialized text of the range used in the C1 scenario. -/
def c1Json : String := "\x7b\"start\":\"2025-01-01\",\"end\":\"2025-01-02\"\x7d"

/-- Structured form of the same range. -/
def c1Pairs : List (String × String) :=
  [("start", "2025-01-01"), ("end", "2025-01-02")]

/-- Claim C1: `get_news_by_date` indeed resolves the JSON text and the
structured object identically, but `get_news_for_summary` does not: it
coerces the dict with `str()` into a single-quoted Python repr that the
JSON-based normalizer cannot parse, so the structured call fails with
`INVALID_PARAMETER` while the JSON-text call succeeds. -/
theorem claim_C1 :
    get_news_by_date testEnv (.strA c1Json) none none false =
      get_news_by_date testEnv (.objA c1Pairs) none none false ∧
    successFlag (get_news_for_summary testEnv
      ⟨.strA c1Json, "daily", "keyword", 10, false⟩) = true ∧
    successFlag (get_news_for_summary testEnv
      ⟨.objA c1Pairs, "daily", "keyword", 10, false⟩) = false ∧
    errCodeOf (get_news_for_summary testEnv
      ⟨.objA c1Pairs, "daily", "keyword", 10, false⟩) = some "INVALID_PARAMETER" :=
  ⟨rfl, rfl, rfl, rfl⟩

/-- Well-formed uniform envelope: a boolean `success` field that is either
true, or false with a structured `error` object. -/
def envelopeOk (d : Dict) : Prop :=
  dLookup d "success" = some (.b true) ∨
  (dLookup d "success" = some (.b false) ∧
    ∃ eo, dLookup d "error" = some (.obj eo))

theorem tryWrap_mcp {b : Except PyExn Dict} {e : ErrDict}
    (h : b = .error (.mcp e)) : tryWrap b = mcpFailDict e := by
  rw [h]
  rfl

theorem tryWrap_other {b : Except PyExn Dict} {m : String}
    (h : b = .error (.other m)) : tryWrap b = internalFailDict m := by
  rw [h]
  rfl

theorem envelopeOk_tryWrap (b : Except PyExn Dict)
    (h : ∀ d, b = .ok d → envelopeOk d) : envelopeOk (tryWrap b) := by
  cases b with
  | ok d => exact h d rfl
  | error e =>
    cases e with
    | mcp e =>
      right
      exact ⟨rfl, errObj e, rfl⟩
    | other m =>
      right
      exact ⟨rfl, [("code", .s "INTERNAL_ERROR"), ("message", .s m)], rfl⟩

theorem envOk_latestNews (env : Env) (p : Option (List String)) (l : Option Int)
    (u : Bool) : envelopeOk (get_latest_news env p l u) := by
  unfold get_latest_news
  apply envelopeOk_tryWrap
  intro d hd
  unfold latestNewsBody at hd
  repeat' split at hd
  all_goals
    first
      | (simp only [Except.ok.injEq] at hd
         subst hd
         first
           | (left; rfl)
           | (left; exact dLookup_dictSet_self _ _ _)
           | (right; exact ⟨rfl, _, rfl⟩))
      | simp at hd

theorem envOk_searchKeyword (env : Env) (kw : String) (dr : DateRangeArg)
    (p : Option (List String)) (l : Option Int) :
    envelopeOk (search_news_by_keyword env kw dr p l) := by
  unfold search_news_by_keyword
  apply envelopeOk_tryWrap
  intro d hd
  unfold searchKeywordBody at hd
  repeat' split at hd
  all_goals
    first
      | (simp only [Except.ok.injEq] at hd
         subst hd
         first
           | (left; rfl)
           | (left; exact dLookup_dictSet_self _ _ _)
           | (right; exact ⟨rfl, _, rfl⟩))
      | simp at hd

theorem envOk_trending (env : Env) (tn : Option Int) (mo : Option String)
    (em : Option String) : envelopeOk (get_trending_topics env tn mo em) := by
  unfold get_trending_topics
  apply envelopeOk_tryWrap
  intro d hd
  unfold trendingBody at hd
  repeat' split at hd
  all_goals
    first
      | (simp only [Except.ok.injEq] at hd
         subst hd
         first
           | (left; rfl)
           | (left; exact dLookup_dictSet_self _ _ _)
           | (right; exact ⟨rfl, _, rfl⟩))
      | simp at hd

theorem envOk_byDate (env : Env) (dr : DateRangeArg) (p : Option (List String))
    (l : Option Int) (u : Bool) : envelopeOk (get_news_by_date env dr p l u) := by
  unfold get_news_by_date
  apply envelopeOk_tryWrap
  intro d hd
  unfold byDateBody at hd
  repeat' split at hd
  all_goals
    first
      | (simp only [Except.ok.injEq] at hd
         subst hd
         first
           | (left; rfl)
           | (left; exact dLookup_dictSet_self _ _ _)
           | (right; exact ⟨rfl, _, rfl⟩))
      | simp at hd

theorem envOk_latestRss (env : Env) (f : Option (List String)) (l : Option Int)
    (u : Bool) : envelopeOk (get_latest_rss env f l u) := by
  unfold get_latest_rss
  apply envelopeOk_tryWrap
  intro d hd
  unfold latestRssBody at hd
  repeat' split at hd
  all_goals
    first
      | (simp only [Except.ok.injEq] at hd
         subst hd
         first
           | (left; rfl)
           | (left; exact dLookup_dictSet_self _ _ _)
           | (right; exact ⟨rfl, _, rfl⟩))
      | simp at hd

theorem envOk_searchRss (env : Env) (kw : String) (f : Option (List String))
    (dy : Int) (l : Option Int) (u : Bool) :
    envelopeOk (search_rss env kw f dy l u) := by
  unfold search_rss
  apply envelopeOk_tryWrap
  intro d hd
  unfold searchRssBody at hd
  repeat' split at hd
  all_goals
    first
      | (simp only [Except.ok.injEq] at hd
         subst hd
         first
           | (left; rfl)
           | (left; exact dLookup_dictSet_self _ _ _)
           | (right; exact ⟨rfl, _, rfl⟩))
      | simp at hd

theorem envOk_rssStatus (env : Env) : envelopeOk (get_rss_feeds_status env) := by
  unfold get_rss_feeds_status
  apply envelopeOk_tryWrap
  intro d hd
  unfold rssStatusBody at hd
  repeat' split at hd
  all_goals
    first
      | (simp only [Except.ok.injEq] at hd
         subst hd
         first
           | (left; rfl)
           | (left; exact dLookup_dictSet_self _ _ _)
           | (right; exact ⟨rfl, _, rfl⟩))
      | simp at hd

theorem envOk_summary (env : Env) (args : SummaryArgs) :
    envelopeOk (get_news_for_summary env args) := by
  unfold get_news_for_summary
  apply envelopeOk_tryWrap
  intro d hd
  cases hb : summaryBody env args with
  | error e =>
    rw [hb] at hd
    simp [Except.map] at hd
  | ok out =>
    rw [hb] at hd
    simp only [Except.map, Except.ok.injEq] at hd
    subst hd
    cases out with
    | notFound ds =>
      right
      exact ⟨rfl, _, rfl⟩
    | kwOut t m g => left; rfl
    | pfOut t m g => left; rfl

theorem summary_mcpFail (env : Env) (sargs : SummaryArgs) (e : ErrDict)
    (h : summaryBody env sargs = .error (.mcp e)) :
    get_news_for_summary env sargs = mcpFailDict e := by
  unfold get_news_for_summary
  rw [h]
  rfl

theorem summary_otherFail (env : Env) (sargs : SummaryArgs) (msg : String)
    (h : summaryBody env sargs = .error (.other msg)) :
    get_news_for_summary env sargs = internalFailDict msg := by
  unfold get_news_for_summary
  rw [h]
  rfl

/-- Claim C9: for every input and every collaborator behavior each public
operation returns an envelope dictionary and never raises: the `success`
field is boolean (true, or false together with a structured `error`
object), a raised `MCPError` yields exactly its dictionary, and any other
exception yields code `INTERNAL_ERROR` with the message only. -/
theorem claim_C9 (env : Env)
    (p1 : Option (List String)) (l1 : Option Int) (u1 : Bool)
    (kw2 : String) (dr2 : DateRangeArg) (p2 : Option (List String)) (l2 : Option Int)
    (tn3 : Option Int) (m3 : Option String) (e3 : Option String)
    (dr4 : DateRangeArg) (p4 : Option (List String)) (l4 : Option Int) (u4 : Bool)
    (f5 : Option (List String)) (l5 : Option Int) (u5 : Bool)
    (kw6 : String) (f6 : Option (List String)) (d6 : Int) (l6 : Option Int) (u6 : Bool)
    (sargs : SummaryArgs) :
    (envelopeOk (get_latest_news env p1 l1 u1) ∧
      (∀ e, latestNewsBody env p1 l1 u1 = .error (.mcp e) →
        get_latest_news env p1 l1 u1 = mcpFailDict e) ∧
      (∀ msg, latestNewsBody env p1 l1 u1 = .error (.other msg) →
        get_latest_news env p1 l1 u1 = internalFailDict msg)) ∧
    (envelopeOk (search_news_by_keyword env kw2 dr2 p2 l2) ∧
      (∀ e, searchKeywordBody env kw2 dr2 p2 l2 = .error (.mcp e) →
        search_news_by_keyword env kw2 dr2 p2 l2 = mcpFailDict e) ∧
      (∀ msg, searchKeywordBody env kw2 dr2 p2 l2 = .error (.other msg) →
        search_news_by_keyword env kw2 dr2 p2 l2 = internalFailDict msg)) ∧
    (envelopeOk (get_trending_topics env tn3 m3 e3) ∧
      (∀ e, trendingBody env tn3 m3 e3 = .error (.mcp e) →
        get_trending_topics env tn3 m3 e3 = mcpFailDict e) ∧
      (∀ msg, trendingBody env tn3 m3 e3 = .error (.other msg) →
        get_trending_topics env tn3 m3 e3 = internalFailDict msg)) ∧
    (envelopeOk (get_news_by_date env dr4 p4 l4 u4) ∧
      (∀ e, byDateBody env dr4 p4 l4 u4 = .error (.mcp e) →
        get_news_by_date env dr4 p4 l4 u4 = mcpFailDict e) ∧
      (∀ msg, byDateBody env dr4 p4 l4 u4 = .error (.other msg) →
        get_news_by_date env dr4 p4 l4 u4 = internalFailDict msg)) ∧
    (envelopeOk (get_latest_rss env f5 l5 u5) ∧
      (∀ e, latestRssBody env f5 l5 u5 = .error (.mcp e) →
        get_latest_rss env f5 l5 u5 = mcpFailDict e) ∧
      (∀ msg, latestRssBody env f5 l5 u5 = .error (.other msg) →
        get_latest_rss env f5 l5 u5 = internalFailDict msg)) ∧
    (envelopeOk (search_rss env kw6 f6 d6 l6 u6) ∧
      (∀ e, searchRssBody env kw6 f6 d6 l6 u6 = .error (.mcp e) →
        search_rss env kw6 f6 d6 l6 u6 = mcpFailDict e) ∧
      (∀ msg, searchRssBody env kw6 f6 d6 l6 u6 = .error (.other msg) →
        search_rss env kw6 f6 d6 l6 u6 = internalFailDict msg)) ∧
    (envelopeOk (get_rss_feeds_status env) ∧
      (∀ e, rssStatusBody env = .error (.mcp e) →
        get_rss_feeds_status env = mcpFailDict e) ∧
      (∀ msg, rssStatusBody env = .error (.other msg) →
        get_rss_feeds_status env = internalFailDict msg)) ∧
    (envelopeOk (get_news_for_summary env sargs) ∧
      (∀ e, summaryBody env sargs = .error (.mcp e) →
        get_news_for_summary env sargs = mcpFailDict e) ∧
      (∀ msg, summaryBody env sargs = .error (.other msg) →
        get_news_for_summary env sargs = internalFailDict msg)) := by
  refine ⟨⟨envOk_latestNews env p1 l1 u1, fun e h => tryWrap_mcp h,
      fun msg h => tryWrap_other h⟩,
    ⟨envOk_searchKeyword env kw2 dr2 p2 l2, fun e h => tryWrap_mcp h,
      fun msg h => tryWrap_other h⟩,
    ⟨envOk_trending env tn3 m3 e3, fun e h => tryWrap_mcp h,
      fun msg h => tryWrap_other h⟩,
    ⟨envOk_byDate env dr4 p4 l4 u4, fun e h => tryWrap_mcp h,
      fun msg h => tryWrap_other h⟩,
    ⟨envOk_latestRss env f5 l5 u5, fun e h => tryWrap_mcp h,
      fun msg h => tryWrap_other h⟩,
    ⟨envOk_searchRss env kw6 f6 d6 l6 u6, fun e h => tryWrap_mcp h,
      fun msg h => tryWrap_other h⟩,
    ⟨envOk_rssStatus env, fun e h => tryWrap_mcp h,
      fun msg h => tryWrap_other h⟩,
    ⟨envOk_summary env sargs, fun e h => summary_mcpFail env sargs e h,
      fun msg h => summary_otherFail env sargs msg h⟩⟩

/-- Environment whose latest-news service raises a plain exception. -/
def boomEnv : Env :=
  { testEnv with svcLatestNews := fun _ _ _ => .error (.other "boom") }

theorem claim_C9_witness :
    get_latest_news boomEnv none none false = internalFailDict "boom" :=
  (claim_C9 boomEnv none none false "k" .noneA none none none none none
    .noneA none none false none none false "k" none 7 none false
    ⟨.noneA, "daily", "keyword", 10, false⟩).1.2.2 "boom" rfl

end TrendRadar
